import Mathlib

/-!
Verification development for the emotionCF collaborative-filtering core
(src/emotioncf/cf.py).  The pandas DataFrame of float ratings is embedded as a
labeled table of rational values, with the float NaN missing marker embedded as
the Option value none: every numpy or pandas reduction that propagates NaN is
embedded as an Option-valued computation that propagates none, and skipna
reductions drop none before averaging.  Correlation and cosine similarity
scores divide by a square root; the floating-point square root is embedded as
an abstract function sqrtFn on the rationals threaded through the similarity
computations, so that every statement proved for all sqrtFn covers the real
square root, and concrete runs pin down only the exact value sqrtFn 1 = 1
that the floating-point square root satisfies.  State-mutating methods of the
Python classes become functions from the explicit model state to a pair of the
updated state and an optional raised error: mutations performed before a raise
are kept in the returned state, exactly as in Python.
-/

namespace EmotionCF

/-- A table of possibly missing rational values: rows are subjects, columns
are items, none is the NaN missing marker. -/
abbrev Table := List (List (Option ℚ))

/-- A boolean mask table of the same layout as a Table. -/
abbrev BMask := List (List Bool)

/-- Errors surfaced by the Python code: ValueError with its message,
NotImplementedError naming the rejected metric, and AttributeError naming the
attribute that a not-yet-fit instance is missing. -/
inductive CFErr where
  | valueError (msg : String)
  | notImplementedError (metric : String)
  | attributeError (attr : String)
deriving DecidableEq

/-- Message of the unfit-state error raised by evaluation and predict methods. -/
def unfitMsg : String := "You must fit() model first before using this method."

/-- Message of the no-prediction error raised by evaluation methods. -/
def noPredictMsg : String := "You must predict() model first before using this method."

/-- Message of the missing-split error. -/
def noSplitMsg : String := "Must run split_train_test() before using this option."

/-- Message of the no-test-data error. -/
def noTestMsg : String := "No test data available. Use data all or training"

/-- Message of the no-mask error raised by dilation. -/
def noMaskMsg : String := "Make sure cf instance has been masked."

/-- Message of the invalid data-selection error of retrieve predictions. -/
def badDataMsg : String := "data must be all, training or test"

/-- np.mean of a list of rationals: NaN (none) on the empty list, otherwise
the arithmetic mean. -/
def listMean (l : List ℚ) : Option ℚ :=
  if l.isEmpty then none else some (l.sum / l.length)

/-- Sequence a list of optional values: none as soon as one entry is none,
matching NaN poisoning of numpy vector arithmetic. -/
def allSome {γ : Type} : List (Option γ) → Option (List γ)
  | [] => some []
  | none :: _ => none
  | some v :: t => (allSome t).map (fun l => v :: l)

/-- DataFrame boolean masking df[mask]: keeps the shape, replaces cells where
the mask is false by the missing marker. -/
def applyMask (t : Table) (m : BMask) : Table :=
  List.zipWith (fun row mrow => List.zipWith (fun v b => if b then v else none) row mrow) t m

/-- Elementwise negation of a mask (the Python operator tilde). -/
def maskNot (m : BMask) : BMask := m.map (fun row => row.map (fun b => !b))

/-- values[mask] boolean selection: the row-major list of cell values at the
true cells of the mask (values may themselves be missing). -/
def flattenMasked (t : Table) (m : BMask) : List (Option ℚ) :=
  (List.zipWith (fun row mrow =>
    (List.zipWith (fun v b => (v, b)) row mrow).filterMap
      (fun p => if p.2 then some p.1 else none)) t m).flatten

/-- values.flatten() of a full table. -/
def flattenAll (t : Table) : List (Option ℚ) := t.flatten

/-- The not-null mask of a table. -/
def notNullMask (t : Table) : BMask := t.map (fun row => row.map Option.isSome)

/-- ratings.isnull().any().any(): does the table hold any missing marker. -/
def anyNull (t : Table) : Bool := t.any (fun row => row.any Option.isNone)

/-- Column j of a table, reading missing outside the row. -/
def colAt (t : Table) (j : ℕ) : List (Option ℚ) := t.map (fun row => row.getD j none)

/-- Skipna mean of column j: pandas df.mean(axis=0) for one column. -/
def colMean (t : Table) (j : ℕ) : Option ℚ := listMean ((colAt t j).filterMap id)

/-- Skipna means of the first c columns: pandas df.mean(skipna=True, axis=0). -/
def colMeans (c : ℕ) (t : Table) : List (Option ℚ) := (List.range c).map (colMean t)

/-- df.mean().mean(): the skipna mean of the skipna column means. -/
def meanOfColMeans (c : ℕ) (t : Table) : Option ℚ :=
  listMean ((colMeans c t).filterMap id)

/-- Mean over the multiset of all non-missing cell values of a table. -/
def grandMean (t : Table) : Option ℚ := listMean ((flattenAll t).filterMap id)

/-- A labeled data table standing for a pandas DataFrame; labels are kept so
that label preservation of derived tables is a provable statement. -/
structure DF where
  rowLab : List ℕ
  colLab : List ℕ
  vals : Table
deriving DecidableEq

/-- The state of one BaseCF model instance: the attributes assigned by
BaseCF.__init__ plus the fit artifacts of each subclass (None before fit,
embedded as none). -/
structure CFState where
  ratings : DF
  predicted_ratings : Option DF := none
  is_fit : Bool := false
  is_predict : Bool := false
  is_mask : Bool := false
  is_mask_dilated : Bool := false
  train_mask : Option BMask := none
  masked_ratings : Option Table := none
  dilated_mask : Option BMask := none
  mean : Option (List (Option ℚ)) := none
  subject_similarity : Option (List (List (Option ℚ))) := none
  W : Option (List (List ℚ)) := none
  H : Option (List (List ℚ)) := none
  global_bias : Option ℚ := none
  user_bias : Option (List ℚ) := none
  item_bias : Option (List ℚ) := none
  user_vecs : Option (List (List ℚ)) := none
  item_vecs : Option (List (List ℚ)) := none

/-- BaseCF.__init__ (without the optional n_train_items shortcut): stores the
ratings, takes the given mask, else auto-derives a not-null mask when the
ratings hold missing values, else stays unmasked. -/
def initCF (ratings : DF) (mask : Option BMask) : CFState :=
  match mask with
  | some m =>
      { ratings := ratings, train_mask := some m,
        masked_ratings := some (applyMask ratings.vals m), is_mask := true }
  | none =>
      if anyNull ratings.vals then
        { ratings := ratings, train_mask := some (notNullMask ratings.vals),
          masked_ratings := some (applyMask ratings.vals (notNullMask ratings.vals)),
          is_mask := true }
      else
        { ratings := ratings, is_mask := false }

/-- BaseCF._retrieve_predictions: selects the (actual, predicted) value lists
for a data slice, mirroring each branch of the source. -/
def retrievePredictions (data : String) (s : CFState) :
    Except CFErr (List (Option ℚ) × List (Option ℚ)) :=
  if data ≠ "all" ∧ data ≠ "training" ∧ data ≠ "test" then
    .error (.valueError badDataMsg)
  else if data = "all" then
    if s.is_mask then
      if s.is_mask_dilated then
        .ok (flattenMasked (s.masked_ratings.getD []) (s.dilated_mask.getD []),
             flattenMasked ((s.predicted_ratings.getD s.ratings).vals) (s.dilated_mask.getD []))
      else
        .ok (flattenMasked (s.masked_ratings.getD []) (s.train_mask.getD []),
             flattenMasked ((s.predicted_ratings.getD s.ratings).vals) (s.train_mask.getD []))
    else
      .ok (flattenAll s.ratings.vals, flattenAll ((s.predicted_ratings.getD s.ratings).vals))
  else if s.is_mask then
    if data = "training" then
      .ok (flattenMasked (s.masked_ratings.getD []) (s.train_mask.getD []),
           flattenMasked ((s.predicted_ratings.getD s.ratings).vals) (s.train_mask.getD []))
    else
      let actual := flattenMasked s.ratings.vals (maskNot (s.train_mask.getD []))
      let predicted := flattenMasked ((s.predicted_ratings.getD s.ratings).vals)
        (maskNot (s.train_mask.getD []))
      if actual.all Option.isNone then .error (.valueError noTestMsg)
      else .ok (actual, predicted)
  else
    .error (.valueError noSplitMsg)

/-- np.mean((pred-actual)**2) on two aligned value vectors: NaN poisoning, so
the result is missing when any pair has a missing side or the selection is
empty. -/
def mseFull (actual pred : List (Option ℚ)) : Option ℚ :=
  match allSome actual, allSome pred with
  | some a, some p => listMean (List.zipWith (fun x y => (y - x) ^ 2) a p)
  | _, _ => none

/-- Mean squared error over only the pairs whose two sides are both present,
as the specification describes it. -/
def mseDropping (actual pred : List (Option ℚ)) : Option ℚ :=
  listMean ((List.zipWith (fun x y => (x, y)) actual pred).filterMap
    (fun p => match p with
      | (some x, some y) => some ((y - x) ^ 2)
      | _ => none))

/-- BaseCF.get_mse: the unfit and no-prediction guards, then the retrieval
rule, then np.mean((pred-actual)**2) over the selected pairs. -/
def getMse (data : String) (s : CFState) : Except CFErr (Option ℚ) :=
  if !s.is_fit then .error (.valueError unfitMsg)
  else if !s.is_predict then .error (.valueError noPredictMsg)
  else (retrievePredictions data s).map (fun p => mseFull p.1 p.2)

/-- get_mse as the specification words it: the same guards and retrieval rule,
but pairs with a missing side are dropped before averaging. -/
def getMseSpec (data : String) (s : CFState) : Except CFErr (Option ℚ) :=
  if !s.is_fit then .error (.valueError unfitMsg)
  else if !s.is_predict then .error (.valueError noPredictMsg)
  else (retrievePredictions data s).map (fun p => mseDropping p.1 p.2)

/-- Does every (actual, predicted) pair that get_mse would select have both
sides present (vacuously true when retrieval itself fails). -/
def retrieveComplete (data : String) (s : CFState) : Bool :=
  match retrievePredictions data s with
  | .ok (a, p) => (List.zipWith (fun x y => (x, y)) a p).all
      (fun q => q.1.isSome && q.2.isSome)
  | .error _ => true

/-- np.convolve(a, np.ones(n), mode same): entry i is the sum of the window
of width n whose right end sits at index i plus floor((n-1)/2), entries out of
range contributing zero. -/
def convSame (a : List ℚ) (n : ℕ) : List ℚ :=
  (List.range a.length).map (fun i =>
    ((List.range n).map (fun o => a.getD (i + (n - 1) / 2 - o) 0 *
      (if o ≤ i + (n - 1) / 2 then 1 else 0))).sum)

/-- BaseCF._conv_ts_mean_overlap on one subject row: convolve the zero-filled
ratings and the observation indicator with a width-n window of ones; cells
with a zero convolved count become missing, the others the windowed average. -/
def convTsMeanOverlap (row : List (Option ℚ)) (n : ℕ) : List (Option ℚ) :=
  let binRow : List ℚ := row.map (fun v => if v.isSome then 1 else 0)
  let filled : List ℚ := row.map (fun v => v.getD 0)
  let binConv := convSame binRow n
  let ratConv := convSame filled n
  List.zipWith (fun b r => if 1 ≤ b then some (r / b) else none) binConv ratConv

/-- BaseCF._dilate_ts_rating_samples after its two guards: recompute the
masked ratings, dilate each row, derive the dilated mask, and flip the one-way
is_mask_dilated flag. -/
def dilateState (n : ℕ) (s : CFState) : CFState :=
  let md := (applyMask s.ratings.vals (s.train_mask.getD [])).map
    (fun row => convTsMeanOverlap row n)
  { s with masked_ratings := some md,
           dilated_mask := some (notNullMask md),
           is_mask_dilated := true }

/-- Mean.fit: per-item skipna means of the dilated, masked or full ratings;
dilation is applied first when requested and a mask exists. -/
def meanFit (dilate : Option ℕ) (s : CFState) : CFState :=
  let c := s.ratings.colLab.length
  if s.is_mask then
    match dilate with
    | some n =>
        let s1 := dilateState n s
        { s1 with
          mean := some (colMeans c (applyMask (s1.masked_ratings.getD []) (s1.dilated_mask.getD []))),
          is_fit := true }
    | none =>
        { s with
          mean := some (colMeans c (applyMask (s.masked_ratings.getD []) (s.train_mask.getD []))),
          is_fit := true }
  else
    { s with mean := some (colMeans c s.ratings.vals), is_fit := true }

/-- Mean.predict: the unfit guard, then the per-item mean vector broadcast
into every subject row of a copy of the ratings table. -/
def meanPredictS (s : CFState) : CFState × Option CFErr :=
  if !s.is_fit then (s, some (.valueError unfitMsg))
  else
    ({ s with
       predicted_ratings := some
         { rowLab := s.ratings.rowLab, colLab := s.ratings.colLab,
           vals := s.ratings.vals.map (fun _ => s.mean.getD []) },
       is_predict := true }, none)

/-- The C1 counterexample model: a Mean model over a 2 by 3 ratings table with
an explicit train mask, fit and predicted. -/
def c1run : CFState :=
  (meanPredictS (meanFit none (initCF
    { rowLab := [0, 1], colLab := [0, 1, 2],
      vals := [[some 1, some 5, some 7], [some 2, none, some 8]] }
    (some [[true, false, true], [true, false, false]])))).1

/-- Does the selection of get_mse pair lists of equal length (vacuously true
when retrieval fails); reachable states always do, since both sides come from
one mask applied to tables of one shape. -/
def retrieveSameLength (data : String) (s : CFState) : Bool :=
  match retrievePredictions data s with
  | .ok (a, p) => a.length == p.length
  | .error _ => true


lemma allSome_of_all_isSome : ∀ (a : List (Option ℚ)), a.all Option.isSome = true →
    allSome a = some (a.filterMap id) := by
  intro a h
  induction a with
  | nil => rfl
  | cons x t ih =>
      match x with
      | none => simp at h
      | some v =>
          simp only [List.all_cons, Bool.and_eq_true] at h
          simp [allSome, ih h.2]

lemma all_isSome_of_complete : ∀ (a p : List (Option ℚ)), a.length = p.length →
    (List.zipWith (fun x y => (x, y)) a p).all (fun q => q.1.isSome && q.2.isSome) = true →
    a.all Option.isSome = true ∧ p.all Option.isSome = true := by
  intro a
  induction a with
  | nil =>
      intro p hl _
      cases p with
      | nil => exact ⟨rfl, rfl⟩
      | cons y q => simp at hl
  | cons x t ih =>
      intro p hl hc
      match p with
      | [] => simp at hl
      | y :: q =>
          simp only [List.zipWith_cons_cons, List.all_cons, Bool.and_eq_true] at hc
          simp only [List.length_cons, Nat.succ.injEq] at hl
          have := ih q hl hc.2
          simp only [List.all_cons, Bool.and_eq_true]
          exact ⟨⟨hc.1.1, this.1⟩, ⟨hc.1.2, this.2⟩⟩

lemma zipWith_sq_filterMap : ∀ (a p : List (Option ℚ)),
    a.all Option.isSome = true → p.all Option.isSome = true →
    List.zipWith (fun x y => (y - x) ^ 2) (a.filterMap id) (p.filterMap id) =
      (List.zipWith (fun x y => (x, y)) a p).filterMap
        (fun q => match q with
          | (some x, some y) => some ((y - x) ^ 2)
          | _ => none) := by
  intro a
  induction a with
  | nil => intro p _ _; simp
  | cons x t ih =>
      intro p ha hp
      match x with
      | none => simp at ha
      | some xv =>
          simp only [List.all_cons, Bool.and_eq_true] at ha
          match p with
          | [] => simp
          | none :: q => simp at hp
          | some yv :: q =>
              simp only [List.all_cons, Bool.and_eq_true] at hp
              simp only [List.filterMap_cons, List.zipWith_cons_cons]
              simp [ih q ha.2 hp.2]

lemma mseFull_eq_mseDropping (a p : List (Option ℚ)) (hl : a.length = p.length)
    (hc : (List.zipWith (fun x y => (x, y)) a p).all
      (fun q => q.1.isSome && q.2.isSome) = true) :
    mseFull a p = mseDropping a p := by
  obtain ⟨ha, hp⟩ := all_isSome_of_complete a p hl hc
  rw [mseFull, allSome_of_all_isSome a ha, allSome_of_all_isSome p hp]
  rw [mseDropping, ← zipWith_sq_filterMap a p ha hp]

theorem C1_mse_complete_agrees (data : String) (s : CFState)
    (hcomp : retrieveComplete data s = true)
    (hlen : retrieveSameLength data s = true) :
    getMse data s = getMseSpec data s := by
  unfold getMse getMseSpec
  cases hf : s.is_fit with
  | false => rfl
  | true =>
    cases hp : s.is_predict with
    | false => rfl
    | true =>
      simp only [Bool.not_true, Bool.false_eq_true, if_false]
      rcases hr : retrievePredictions data s with e | ⟨a, p⟩
      · rfl
      · simp only [retrieveComplete, hr] at hcomp
        simp only [retrieveSameLength, hr, beq_iff_eq] at hlen
        simp only [Except.map]
        rw [mseFull_eq_mseDropping a p hlen hcomp]

theorem C1_mse_complete_agrees_witness :
    getMse "training" c1run = getMseSpec "training" c1run :=
  C1_mse_complete_agrees "training" c1run (by decide) (by decide)

theorem C1_counterexample :
    getMse "test" c1run = .ok none ∧
    getMseSpec "test" c1run = .ok (some 1) ∧
    (Except.ok (none : Option ℚ) : Except CFErr (Option ℚ)) ≠ .ok (some 1) := by
  refine ⟨by rfl, ?_, by simp⟩
  show getMseSpec "test" c1run = .ok (some 1)
  simp +decide [getMseSpec, retrievePredictions, mseDropping, listMean, c1run,
    meanPredictS, meanFit, initCF, applyMask, flattenMasked, maskNot,
    colMeans, colMean, colAt, flattenAll, anyNull, List.range_succ, Except.map]
  norm_num

/-- The initialization segment of NNMF_sgd.fit (cf.py lines 705 to 737),
before the gradient-descent epochs: optional dilation, the global bias from
the branch-specific double-masked df.mean().mean() or the flat observed mean,
the injected normal draws for the latent vectors, and zero bias vectors.  The
random normal initial factors are an injected argument. -/
def sgdFitInit (uInit vInit : List (List ℚ)) (dilate : Option ℕ) (s : CFState) :
    CFState × Option CFErr :=
  let nU := s.ratings.rowLab.length
  let nI := s.ratings.colLab.length
  match dilate with
  | some n =>
      if !s.is_mask then (s, some (.valueError noMaskMsg))
      else
        let s1 := dilateState n s
        ({ s1 with
           global_bias := meanOfColMeans nI
             (applyMask (applyMask (s1.masked_ratings.getD []) (s1.dilated_mask.getD []))
               (s1.dilated_mask.getD [])),
           user_vecs := some uInit, item_vecs := some vInit,
           user_bias := some (List.replicate nU 0),
           item_bias := some (List.replicate nI 0) }, none)
  | none =>
      let gb :=
        if s.is_mask then
          if s.is_mask_dilated then
            meanOfColMeans nI
              (applyMask (applyMask (s.masked_ratings.getD []) (s.dilated_mask.getD []))
                (s.dilated_mask.getD []))
          else
            meanOfColMeans nI
              (applyMask (applyMask (s.masked_ratings.getD []) (s.train_mask.getD []))
                (s.train_mask.getD []))
        else grandMean s.ratings.vals
      ({ s with global_bias := gb,
                user_vecs := some uInit, item_vecs := some vInit,
                user_bias := some (List.replicate nU 0),
                item_bias := some (List.replicate nI 0) }, none)

/-- The multiset of individually observed training ratings of a masked model:
the non-missing values sitting at mask-true cells. -/
def trainObservedVals (s : CFState) : List ℚ :=
  (flattenMasked s.ratings.vals (s.train_mask.getD [])).filterMap id

/-- The C4 model: a 2 by 2 ratings table with an explicit train mask whose
first item has two observed cells and whose second has one. -/
def c4s : CFState :=
  initCF
    { rowLab := [0, 1], colLab := [0, 1],
      vals := [[some 0, some 4], [some 2, some 9]] }
    (some [[true, true], [true, false]])

lemma zipWith_mask_row_idem (row : List (Option ℚ)) (mrow : List Bool) :
    List.zipWith (fun v b => if b then v else none)
      (List.zipWith (fun v b => if b then v else none) row mrow) mrow =
    List.zipWith (fun v b => if b then v else none) row mrow := by
  induction row generalizing mrow with
  | nil => simp
  | cons v t ih =>
      match mrow with
      | [] => simp
      | b :: mq =>
          cases b <;> simp [ih mq]

lemma applyMask_idem (t : Table) (m : BMask) :
    applyMask (applyMask t m) m = applyMask t m := by
  unfold applyMask
  induction t generalizing m with
  | nil => simp
  | cons row tq ih =>
      match m with
      | [] => simp
      | mrow :: mq => simp [zipWith_mask_row_idem row mrow, ih mq]

/-- C4, corrected: in NNMF_sgd.fit, user_bias and item_bias are initialized
to zero vectors as claimed, and in the unmasked case global_bias is the mean
of the multiset of observed cell values; but in the masked non-dilated case
global_bias is the unweighted mean of the per-item observed means of the
(single-)masked training ratings, which differs from the multiset mean when
items have unequal observed counts (see the C4 counterexample). -/
theorem C4_sgd_init (uInit vInit : List (List ℚ)) (s : CFState) :
    (sgdFitInit uInit vInit none s).1.user_bias =
      some (List.replicate s.ratings.rowLab.length 0) ∧
    (sgdFitInit uInit vInit none s).1.item_bias =
      some (List.replicate s.ratings.colLab.length 0) ∧
    (s.is_mask = false →
      (sgdFitInit uInit vInit none s).1.global_bias = grandMean s.ratings.vals) ∧
    (s.is_mask = true → s.is_mask_dilated = false →
      (sgdFitInit uInit vInit none s).1.global_bias =
        meanOfColMeans s.ratings.colLab.length
          (applyMask (s.masked_ratings.getD []) (s.train_mask.getD []))) := by
  refine ⟨rfl, rfl, ?_, ?_⟩
  · intro hm
    simp [sgdFitInit, hm]
  · intro hm hd
    simp [sgdFitInit, hm, hd, applyMask_idem]

/-- C4 witness: the instantiated zero biases and masked-branch global bias on
a concrete masked model. -/
theorem C4_sgd_init_witness :
    (sgdFitInit [[0]] [[0]] none c4s).1.user_bias =
      some (List.replicate c4s.ratings.rowLab.length 0) ∧
    (sgdFitInit [[0]] [[0]] none c4s).1.global_bias =
      meanOfColMeans c4s.ratings.colLab.length
        (applyMask (c4s.masked_ratings.getD []) (c4s.train_mask.getD [])) :=
  ⟨(C4_sgd_init [[0]] [[0]] c4s).1, (C4_sgd_init [[0]] [[0]] c4s).2.2.2 rfl rfl⟩

/-- C4 counterexample: a masked model whose two items have unequal observed
counts; NNMF_sgd.fit initializes global_bias to 5/2, the mean of the item
means 1 and 4, while the arithmetic mean of the multiset of observed training
ratings 0, 4, 2 is 2. -/
theorem C4_counterexample :
    (sgdFitInit [[0]] [[0]] none c4s).1.global_bias = some (5 / 2) ∧
    listMean (trainObservedVals c4s) = some 2 ∧
    some ((5 : ℚ) / 2) ≠ some (2 : ℚ) := by
  refine ⟨?_, ?_, by norm_num⟩
  · simp +decide [sgdFitInit, c4s, initCF, applyMask, meanOfColMeans, colMeans,
      colMean, colAt, listMean, anyNull, List.range_succ]
    norm_num
  · simp +decide [trainObservedVals, c4s, initCF, flattenMasked, listMean, anyNull]
    norm_num

/-- The paired overlap of two rating rows: the (x, y) value pairs at indices
where both rows are observed, the selection both pandas pairwise-complete
correlation and the explicit correlation and cosine loops of KNN.fit use. -/
def overlap : List (Option ℚ) → List (Option ℚ) → List (ℚ × ℚ)
  | some a :: xs, some b :: ys => (a, b) :: overlap xs ys
  | _ :: xs, _ :: ys => overlap xs ys
  | _, _ => []

/-- Sum of the first components of a pair list. -/
def sumFst (ps : List (ℚ × ℚ)) : ℚ := (ps.map Prod.fst).sum

/-- Sum of the second components of a pair list. -/
def sumSnd (ps : List (ℚ × ℚ)) : ℚ := (ps.map Prod.snd).sum

/-- Sum of the products of each pair. -/
def sumProd (ps : List (ℚ × ℚ)) : ℚ := (ps.map (fun p => p.1 * p.2)).sum

/-- Sum of the squared first components. -/
def sumFstSq (ps : List (ℚ × ℚ)) : ℚ := (ps.map (fun p => p.1 ^ 2)).sum

/-- Sum of the squared second components. -/
def sumSndSq (ps : List (ℚ × ℚ)) : ℚ := (ps.map (fun p => p.2 ^ 2)).sum

/-- Numerator of the Pearson correlation over a pair list. -/
def pearsonNum (ps : List (ℚ × ℚ)) : ℚ :=
  (ps.length : ℚ) * sumProd ps - sumFst ps * sumSnd ps

/-- Square of the Pearson denominator over a pair list. -/
def pearsonDenSq (ps : List (ℚ × ℚ)) : ℚ :=
  ((ps.length : ℚ) * sumFstSq ps - sumFst ps ^ 2) *
    ((ps.length : ℚ) * sumSndSq ps - sumSnd ps ^ 2)

/-- Pearson correlation of a pair list, as scipy pearsonr and pandas corr
compute it: NaN when either variance term vanishes (which covers overlaps of
length zero or one), else the standard quotient through the square root. -/
def pearsonOpt (sqrtFn : ℚ → ℚ) (ps : List (ℚ × ℚ)) : Option ℚ :=
  if pearsonDenSq ps = 0 then none else some (pearsonNum ps / sqrtFn (pearsonDenSq ps))

/-- Cosine similarity of a pair list as the explicit KNN loop computes it:
the dot product over the product of the two norms, NaN when either norm
vanishes. -/
def cosineOpt (sqrtFn : ℚ → ℚ) (ps : List (ℚ × ℚ)) : Option ℚ :=
  if sumFstSq ps * sumSndSq ps = 0 then none
  else some (sumProd ps / (sqrtFn (sumFstSq ps) * sqrtFn (sumSndSq ps)))

/-- The average rank of value v inside list l (ties share the mean of their
positions), as used by the Spearman correlation. -/
def rankAvg (l : List ℚ) (v : ℚ) : ℚ :=
  (l.countP (fun w => decide (w < v)) : ℚ) +
    ((l.countP (fun w => decide (w = v)) : ℚ) + 1) / 2

/-- Replace each entry of a list by its average rank. -/
def avgRanks (l : List ℚ) : List ℚ := l.map (rankAvg l)

/-- Spearman correlation: the Pearson correlation of the two rank vectors of
the overlap. -/
def spearmanOpt (sqrtFn : ℚ → ℚ) (ps : List (ℚ × ℚ)) : Option ℚ :=
  pearsonOpt sqrtFn
    (List.zipWith (fun a b => (a, b)) (avgRanks (ps.map Prod.fst)) (avgRanks (ps.map Prod.snd)))

/-- All ordered index pairs i strictly before j of a list, as value pairs. -/
def offDiagPairs {β : Type} : List β → List (β × β)
  | [] => []
  | a :: t => t.map (fun b => (a, b)) ++ offDiagPairs t

/-- Sign of a rational. -/
def sgnQ (x : ℚ) : ℚ := if x < 0 then -1 else if x = 0 then 0 else 1

/-- Kendall tau-b numerator: concordant minus discordant pairs. -/
def kendallNum (ps : List (ℚ × ℚ)) : ℚ :=
  ((offDiagPairs ps).map (fun q => sgnQ (q.1.1 - q.2.1) * sgnQ (q.1.2 - q.2.2))).sum

/-- Kendall tau-b first denominator term: pair count minus ties in x. -/
def kendallDenFst (ps : List (ℚ × ℚ)) : ℚ :=
  ((ps.length : ℚ) * ((ps.length : ℚ) - 1)) / 2 -
    ((offDiagPairs ps).countP (fun q => decide (q.1.1 = q.2.1)) : ℚ)

/-- Kendall tau-b second denominator term: pair count minus ties in y. -/
def kendallDenSnd (ps : List (ℚ × ℚ)) : ℚ :=
  ((ps.length : ℚ) * ((ps.length : ℚ) - 1)) / 2 -
    ((offDiagPairs ps).countP (fun q => decide (q.1.2 = q.2.2)) : ℚ)

/-- Kendall tau-b of a pair list, NaN when a denominator term vanishes. -/
def kendallOpt (sqrtFn : ℚ → ℚ) (ps : List (ℚ × ℚ)) : Option ℚ :=
  if kendallDenFst ps * kendallDenSnd ps = 0 then none
  else some (kendallNum ps / (sqrtFn (kendallDenFst ps) * sqrtFn (kendallDenSnd ps)))

/-- One cell of the KNN subject-by-subject similarity matrix: the metric
applied to the pairwise-complete overlap of the two subject rows. -/
def knnSimEntry (sqrtFn : ℚ → ℚ) (metric : String) (t : Table) (a b : ℕ) : Option ℚ :=
  let ps := overlap (t.getD a []) (t.getD b [])
  if metric = "pearson" ∨ metric = "correlation" then pearsonOpt sqrtFn ps
  else if metric = "spearman" then spearmanOpt sqrtFn ps
  else if metric = "kendall" then kendallOpt sqrtFn ps
  else if metric = "cosine" then cosineOpt sqrtFn ps
  else none

/-- The full KNN similarity matrix over the rows of a table. -/
def knnSimMatrix (sqrtFn : ℚ → ℚ) (metric : String) (t : Table) : List (List (Option ℚ)) :=
  (List.range t.length).map (fun a =>
    (List.range t.length).map (fun b => knnSimEntry sqrtFn metric t a b))

/-- The metric names KNN.fit accepts. -/
def supportedMetric (metric : String) : Bool :=
  metric = "pearson" || metric = "kendall" || metric = "spearman" ||
    metric = "correlation" || metric = "cosine"

/-- KNN.fit: select the masked or full ratings, dilate first when requested
(mutating the dilation state before the metric is validated, exactly as in
the source), then either store the similarity matrix and set is_fit, or
raise the not-implemented error for an unsupported metric. -/
def knnFit (sqrtFn : ℚ → ℚ) (metric : String) (dilate : Option ℕ) (s : CFState) :
    CFState × Option CFErr :=
  let ratings0 := if s.is_mask then applyMask s.ratings.vals (s.train_mask.getD [])
                  else s.ratings.vals
  match dilate with
  | some n =>
      if !s.is_mask then (s, some (.valueError noMaskMsg))
      else
        let s1 := dilateState n s
        let r1 := applyMask (s1.masked_ratings.getD []) (s1.dilated_mask.getD [])
        if supportedMetric metric then
          ({ s1 with subject_similarity := some (knnSimMatrix sqrtFn metric r1),
                     is_fit := true }, none)
        else (s1, some (.notImplementedError metric))
  | none =>
      if supportedMetric metric then
        ({ s with subject_similarity := some (knnSimMatrix sqrtFn metric ratings0),
                  is_fit := true }, none)
      else (s, some (.notImplementedError metric))

/-- Insert an element into a list ordered by the given comes-before test. -/
def insOrd {β : Type} (before : β → β → Bool) (a : β) : List β → List β
  | [] => [a]
  | b :: t => if before a b then a :: b :: t else b :: insOrd before a t

/-- Insertion sort by a comes-before test, a faithful refinement of pandas
sort_values whose tie order is unspecified. -/
def sortOrd {β : Type} (before : β → β → Bool) : List β → List β
  | [] => []
  | b :: t => insOrd before b (sortOrd before t)

/-- The sub-list of index-value pairs whose similarity is defined, with the
value unwrapped. -/
def keepDefined : List (ℕ × Option ℚ) → List (ℕ × ℚ)
  | [] => []
  | (i, some v) :: t => (i, v) :: keepDefined t
  | (_, none) :: t => keepDefined t

/-- The sub-list of index-value pairs whose similarity is undefined. -/
def keepUndefined : List (ℕ × Option ℚ) → List (ℕ × Option ℚ)
  | [] => []
  | (i, none) :: t => (i, none) :: keepUndefined t
  | (_, some _) :: t => keepUndefined t

/-- The neighbor list of KNN.predict for one subject: the subject's
similarity row with self dropped, sorted descending with undefined entries
kept last as sort_values does, sliced to the top k when k is given, and with
undefined similarities then removed. -/
def selectedNeighbors (sim : List (List (Option ℚ))) (su : ℕ) (k : Option ℕ) :
    List (ℕ × ℚ) :=
  let cands := (sim.getD su []).enum.filter (fun p => p.1 ≠ su)
  let sorted := (sortOrd (fun p q => decide (q.2 ≤ p.2)) (keepDefined cands)).map
    (fun p => (p.1, some p.2)) ++ keepUndefined cands
  let sliced := match k with
    | some kk => sorted.take kk
    | none => sorted
  keepDefined sliced

/-- One cell of KNN.predict: np.dot of the neighbor similarities with the
neighbors' column of the full ratings table, divided by the neighbor count;
NaN when a neighbor's rating is missing or the neighbor list is empty. -/
def knnPredictEntry (sim : List (List (Option ℚ))) (fullT : Table) (k : Option ℕ)
    (su j : ℕ) : Option ℚ :=
  let ns := selectedNeighbors sim su k
  match allSome (ns.map (fun p => (fullT.getD p.1 []).getD j none)) with
  | none => none
  | some vs =>
      if ns.length = 0 then none
      else some ((List.zipWith (fun w r => w * r) (ns.map Prod.snd) vs).sum / (ns.length : ℚ))

/-- The full KNN.predict table: one row per row of the iterated table, one
column per item of its columns. -/
def knnPredictTable (sim : List (List (Option ℚ))) (loopLen ncols : ℕ) (fullT : Table)
    (k : Option ℕ) : Table :=
  (List.range loopLen).map (fun su =>
    (List.range ncols).map (fun j => knnPredictEntry sim fullT k su j))

/-- KNN.predict: the unfit guard, then the neighbor-vote table built over the
masked (or full) ratings rows, reading neighbor values from the full ratings
table, with the labels of the ratings. -/
def knnPredictS (k : Option ℕ) (s : CFState) : CFState × Option CFErr :=
  if !s.is_fit then (s, some (.valueError unfitMsg))
  else
    let loopT := if s.is_mask then s.masked_ratings.getD [] else s.ratings.vals
    ({ s with
       predicted_ratings := some
         { rowLab := s.ratings.rowLab, colLab := s.ratings.colLab,
           vals := knnPredictTable (s.subject_similarity.getD []) loopT.length
             s.ratings.colLab.length s.ratings.vals k },
       is_predict := true }, none)

/-- Dot product of two rational lists. -/
def dotL (x y : List ℚ) : ℚ := (List.zipWith (fun a b => a * b) x y).sum

/-- Transpose of a rectangular list-of-rows matrix: one output row per column
of the first input row. -/
def matT (m : List (List ℚ)) : List (List ℚ) :=
  match m with
  | [] => []
  | r :: _ => (List.range r.length).map (fun j => m.map (fun row => row.getD j 0))

/-- Matrix product of two rational list-of-row matrices. -/
def matMul (a b : List (List ℚ)) : List (List ℚ) :=
  a.map (fun row => (matT b).map (fun col => dotL row col))

/-- NNMF_multiplicative.predict: the unfit guard, then every cell of the
ratings copy replaced by the W times H reconstruction. -/
def multPredictS (s : CFState) : CFState × Option CFErr :=
  if !s.is_fit then (s, some (.valueError unfitMsg))
  else
    ({ s with
       predicted_ratings := some
         { rowLab := s.ratings.rowLab, colLab := s.ratings.colLab,
           vals := (matMul (s.W.getD []) (s.H.getD [])).map (fun row => row.map some) },
       is_predict := true }, none)

/-- NNMF_sgd._predict_single: global bias plus the two bias terms plus the
factor dot product. -/
def predictSingle (gb : ℚ) (ub ib : List ℚ) (uv iv : List (List ℚ)) (u i : ℕ) : ℚ :=
  gb + ub.getD u 0 + ib.getD i 0 + dotL (uv.getD u []) (iv.getD i [])

/-- NNMF_sgd.predict: no unfit guard in the source.  The ratings copy is
assigned to predicted_ratings first; on an instance that was never fit the
subsequent attribute access raises an AttributeError (not the unfit-state
ValueError), leaving that copy behind.  When the fit artifacts exist every
cell in range of the factor matrices is overwritten by the single-pair
prediction. -/
def sgdPredictS (s : CFState) : CFState × Option CFErr :=
  let s1 := { s with predicted_ratings := some s.ratings }
  match s.user_vecs, s.item_vecs, s.global_bias, s.user_bias, s.item_bias with
  | some uv, some iv, some gb, some ub, some ib =>
      ({ s1 with
         predicted_ratings := some
           { rowLab := s.ratings.rowLab, colLab := s.ratings.colLab,
             vals := s.ratings.vals.enum.map (fun ru =>
               if ru.1 < uv.length then
                 ru.2.enum.map (fun cv =>
                   if cv.1 < iv.length then some (predictSingle gb ub ib uv iv ru.1 cv.1)
                   else cv.2)
               else ru.2) },
         is_predict := true }, none)
  | _, _, _, _, _ => (s1, some (.attributeError "user_vecs"))

/-- A freshly constructed, never fit, unmasked model state. -/
def c2fresh : CFState :=
  initCF { rowLab := [0], colLab := [0], vals := [[some 1]] } none

/-- A state on which fit has run but predict has not. -/
def c2fitOnly : CFState := { c2fresh with is_fit := true }

/-- C2: the claim is right and the code wrong on NNMF_sgd.predict.  On a
freshly constructed unfit model, Mean.predict, KNN.predict and
NNMF_multiplicative.predict raise the unfit-state error and get_mse raises
the unfit-state error (and, once fit has run without predict, the
no-prediction error), but NNMF_sgd.predict performs no is_fit check: it
fails with an attribute error on the missing fit artifacts after already
assigning predicted_ratings. -/
theorem C2_sgd_predict_missing_guard :
    (sgdPredictS c2fresh).2 = some (.attributeError "user_vecs") ∧
    (sgdPredictS c2fresh).2 ≠ some (.valueError unfitMsg) ∧
    (sgdPredictS c2fresh).1.predicted_ratings = some c2fresh.ratings ∧
    (meanPredictS c2fresh).2 = some (.valueError unfitMsg) ∧
    (knnPredictS none c2fresh).2 = some (.valueError unfitMsg) ∧
    (multPredictS c2fresh).2 = some (.valueError unfitMsg) ∧
    getMse "all" c2fresh = .error (.valueError unfitMsg) ∧
    getMse "all" c2fitOnly = .error (.valueError noPredictMsg) ∧
    c2fresh.is_fit = false := by
  refine ⟨by decide, by decide, by decide, by decide, by decide, by decide, rfl, rfl, by decide⟩

lemma overlap_swap : ∀ (x y : List (Option ℚ)),
    overlap y x = (overlap x y).map Prod.swap := by
  intro x
  induction x with
  | nil =>
      intro y
      cases y with
      | nil => rfl
      | cons b q => rcases b with _ | bv <;> rfl
  | cons a t ih =>
      intro y
      cases y with
      | nil => rcases a with _ | av <;> rfl
      | cons b q =>
          rcases a with _ | av <;> rcases b with _ | bv <;>
            simp [overlap] <;> exact ih q

lemma sumFst_swap (ps : List (ℚ × ℚ)) : sumFst (ps.map Prod.swap) = sumSnd ps := by
  simp [sumFst, sumSnd, List.map_map, Function.comp_def]

lemma sumSnd_swap (ps : List (ℚ × ℚ)) : sumSnd (ps.map Prod.swap) = sumFst ps := by
  simp [sumFst, sumSnd, List.map_map, Function.comp_def]

lemma sumProd_swap (ps : List (ℚ × ℚ)) : sumProd (ps.map Prod.swap) = sumProd ps := by
  unfold sumProd
  rw [List.map_map]
  exact congrArg List.sum (List.map_congr_left (fun p _ => mul_comm p.2 p.1))

lemma sumFstSq_swap (ps : List (ℚ × ℚ)) : sumFstSq (ps.map Prod.swap) = sumSndSq ps := by
  simp [sumFstSq, sumSndSq, List.map_map, Function.comp_def]

lemma sumSndSq_swap (ps : List (ℚ × ℚ)) : sumSndSq (ps.map Prod.swap) = sumFstSq ps := by
  simp [sumFstSq, sumSndSq, List.map_map, Function.comp_def]

lemma pearsonNum_swap (ps : List (ℚ × ℚ)) : pearsonNum (ps.map Prod.swap) = pearsonNum ps := by
  unfold pearsonNum
  rw [sumProd_swap, sumFst_swap, sumSnd_swap, List.length_map, mul_comm (sumSnd ps)]

lemma pearsonDenSq_swap (ps : List (ℚ × ℚ)) :
    pearsonDenSq (ps.map Prod.swap) = pearsonDenSq ps := by
  unfold pearsonDenSq
  rw [sumFstSq_swap, sumSndSq_swap, sumFst_swap, sumSnd_swap, List.length_map, mul_comm]

lemma pearsonOpt_swap (sqrtFn : ℚ → ℚ) (ps : List (ℚ × ℚ)) :
    pearsonOpt sqrtFn (ps.map Prod.swap) = pearsonOpt sqrtFn ps := by
  unfold pearsonOpt
  rw [pearsonNum_swap, pearsonDenSq_swap]

lemma cosineOpt_swap (sqrtFn : ℚ → ℚ) (ps : List (ℚ × ℚ)) :
    cosineOpt sqrtFn (ps.map Prod.swap) = cosineOpt sqrtFn ps := by
  unfold cosineOpt
  rw [sumFstSq_swap, sumSndSq_swap, sumProd_swap, mul_comm (sumSndSq ps),
    mul_comm (sqrtFn (sumSndSq ps))]

lemma zipWith_pair_swap (a b : List ℚ) :
    List.zipWith (fun x y => (x, y)) b a =
      (List.zipWith (fun x y => (x, y)) a b).map Prod.swap := by
  induction a generalizing b with
  | nil => cases b <;> rfl
  | cons x t ih =>
      cases b with
      | nil => rfl
      | cons y q => simp [ih q]

lemma spearmanOpt_swap (sqrtFn : ℚ → ℚ) (ps : List (ℚ × ℚ)) :
    spearmanOpt sqrtFn (ps.map Prod.swap) = spearmanOpt sqrtFn ps := by
  unfold spearmanOpt
  have h1 : (ps.map Prod.swap).map Prod.fst = ps.map Prod.snd := by
    simp [List.map_map, Function.comp]
  have h2 : (ps.map Prod.swap).map Prod.snd = ps.map Prod.fst := by
    simp [List.map_map, Function.comp]
  rw [h1, h2, zipWith_pair_swap (avgRanks (ps.map Prod.fst)), pearsonOpt_swap]

lemma offDiagPairs_map {β γ : Type} (f : β → γ) : ∀ (l : List β),
    offDiagPairs (l.map f) = (offDiagPairs l).map (fun q => (f q.1, f q.2)) := by
  intro l
  induction l with
  | nil => rfl
  | cons a t ih => simp [offDiagPairs, ih, List.map_map, Function.comp]

lemma kendallNum_swap (ps : List (ℚ × ℚ)) : kendallNum (ps.map Prod.swap) = kendallNum ps := by
  unfold kendallNum
  rw [offDiagPairs_map, List.map_map]
  exact congrArg List.sum
    (List.map_congr_left (fun q _ => mul_comm (sgnQ (q.1.2 - q.2.2)) (sgnQ (q.1.1 - q.2.1))))

lemma kendallDenFst_swap (ps : List (ℚ × ℚ)) :
    kendallDenFst (ps.map Prod.swap) = kendallDenSnd ps := by
  unfold kendallDenFst kendallDenSnd
  rw [offDiagPairs_map, List.length_map, List.countP_map]
  rfl

lemma kendallDenSnd_swap (ps : List (ℚ × ℚ)) :
    kendallDenSnd (ps.map Prod.swap) = kendallDenFst ps := by
  unfold kendallDenFst kendallDenSnd
  rw [offDiagPairs_map, List.length_map, List.countP_map]
  rfl

lemma kendallOpt_swap (sqrtFn : ℚ → ℚ) (ps : List (ℚ × ℚ)) :
    kendallOpt sqrtFn (ps.map Prod.swap) = kendallOpt sqrtFn ps := by
  unfold kendallOpt
  rw [kendallNum_swap, kendallDenFst_swap, kendallDenSnd_swap, mul_comm (kendallDenSnd ps),
    mul_comm (sqrtFn (kendallDenSnd ps))]

lemma knnSimEntry_symm (sqrtFn : ℚ → ℚ) (metric : String) (t : Table) (a b : ℕ) :
    knnSimEntry sqrtFn metric t a b = knnSimEntry sqrtFn metric t b a := by
  simp only [knnSimEntry]
  rw [overlap_swap (t.getD b []) (t.getD a [])]
  rw [pearsonOpt_swap, spearmanOpt_swap, kendallOpt_swap, cosineOpt_swap]

lemma getD_map_range {γ : Type} (f : ℕ → γ) (n i : ℕ) (d : γ) :
    ((List.range n).map f).getD i d = if i < n then f i else d := by
  by_cases h : i < n
  · rw [List.getD_eq_getElem?_getD]
    rw [List.getElem?_map, List.getElem?_range h]
    simp [h]
  · rw [List.getD_eq_getElem?_getD, List.getElem?_map]
    rw [List.getElem?_eq_none (by simpa using Nat.le_of_not_lt h)]
    simp [h]

lemma knnSimMatrix_symm (sqrtFn : ℚ → ℚ) (metric : String) (t : Table) (a b : ℕ) :
    ((knnSimMatrix sqrtFn metric t).getD a []).getD b none =
      ((knnSimMatrix sqrtFn metric t).getD b []).getD a none := by
  unfold knnSimMatrix
  rw [getD_map_range, getD_map_range]
  by_cases ha : a < t.length
  · by_cases hb : b < t.length
    · rw [if_pos ha, if_pos hb, getD_map_range, getD_map_range, if_pos hb, if_pos ha]
      exact knnSimEntry_symm sqrtFn metric t a b
    · rw [if_pos ha, if_neg hb, getD_map_range, if_neg hb]
      rfl
  · by_cases hb : b < t.length
    · rw [if_neg ha, if_pos hb, getD_map_range, if_neg ha]
      rfl
    · rw [if_neg ha, if_neg hb]
      rfl

/-- C10, confirmed: the subject-by-subject similarity matrix stored by a
successful KNN.fit is symmetric, for every metric (in particular each of
pearson, spearman, kendall, correlation and cosine, the only metrics a
successful fit can have used), every ratings table, mask and dilation
request, and every embedded square-root function. -/
theorem C10_knn_similarity_symmetric (sqrtFn : ℚ → ℚ) (metric : String)
    (dilate : Option ℕ) (s : CFState) (a b : ℕ)
    (hok : (knnFit sqrtFn metric dilate s).2 = none) :
    (((knnFit sqrtFn metric dilate s).1.subject_similarity.getD []).getD a []).getD b none =
    (((knnFit sqrtFn metric dilate s).1.subject_similarity.getD []).getD b []).getD a none := by
  rcases dilate with _ | n
  · by_cases hsup : supportedMetric metric
    · simp only [knnFit, hsup, if_true]
      exact knnSimMatrix_symm sqrtFn metric _ a b
    · exfalso
      simp [knnFit, hsup] at hok
  · by_cases hm : s.is_mask
    · by_cases hsup : supportedMetric metric
      · simp only [knnFit, hm, Bool.not_true, Bool.false_eq_true, if_false, hsup, if_true]
        exact knnSimMatrix_symm sqrtFn metric _ a b
      · exfalso
        simp [knnFit, hm, hsup] at hok
    · exfalso
      simp [knnFit, hm] at hok

/-- C10 witness: symmetry of the two off-diagonal cells of the similarity
matrix of a concrete successful pearson fit. -/
theorem C10_knn_similarity_symmetric_witness :
    (((knnFit id "pearson" none c2fresh).1.subject_similarity.getD []).getD 0 []).getD 1 none =
    (((knnFit id "pearson" none c2fresh).1.subject_similarity.getD []).getD 1 []).getD 0 none :=
  C10_knn_similarity_symmetric id "pearson" none c2fresh 0 1 (by decide)

/-- The C8 claim formula for one predicted cell: over the selected neighbor
set (similarity row with self dropped, sorted descending, sliced to the top k
when given, undefined entries removed), the sum of similarity times the
neighbor rating read from the full ratings table, divided by the count of
neighbors used; undefined when the neighbor set is empty or a neighbor rating
is missing. -/
def knnClaimEntry (sim : List (List (Option ℚ))) (fullT : Table) (k : Option ℕ)
    (su j : ℕ) : Option ℚ :=
  let ns := selectedNeighbors sim su k
  if ns.isEmpty then none
  else
    match allSome (ns.map (fun p => (fullT.getD p.1 []).getD j none)) with
    | none => none
    | some vs =>
        some ((List.zipWith (fun w r => w * r) (ns.map Prod.snd) vs).sum / (ns.length : ℚ))

/-- C8, confirmed: every cell KNN.predict computes equals the claim formula,
the similarity-weighted sum over the selected neighbor set divided by the
neighbor count (not by the sum of the similarity weights); the final conjunct
pins the division down on a concrete cell with a single neighbor of
similarity one half and rating 4, where the count divisor yields 2 while a
weight-mass divisor would have yielded 4. -/
theorem C8_knn_predict_formula :
    (∀ (sim : List (List (Option ℚ))) (fullT : Table) (k : Option ℕ) (su j : ℕ),
      knnPredictEntry sim fullT k su j = knnClaimEntry sim fullT k su j) ∧
    knnPredictEntry [[none, some (1 / 2)], [some (1 / 2), none]]
      [[some 0, some 0], [some 4, some 4]] none 0 1 = some 2 := by
  constructor
  · intro sim fullT k su j
    simp only [knnPredictEntry, knnClaimEntry]
    rcases h : allSome ((selectedNeighbors sim su k).map
        (fun p => (fullT.getD p.1 []).getD j none)) with _ | vs
    · simp only [h]
      split <;> rfl
    · simp only [h]
      by_cases he : (selectedNeighbors sim su k).length = 0
      · have he2 : (selectedNeighbors sim su k).isEmpty = true := by
          rwa [List.isEmpty_iff_length_eq_zero]
        rw [if_pos he, if_pos he2]
      · have he2 : ¬(selectedNeighbors sim su k).isEmpty = true := by
          rw [List.isEmpty_iff_length_eq_zero]
          exact he
        rw [if_neg he, if_neg he2]
  · simp +decide [knnPredictEntry, selectedNeighbors, sortOrd, insOrd, allSome,
      keepDefined, keepUndefined, List.enum, List.enumFrom]
    norm_num

/-- An empty labeled table, the default used when projecting an optional
DataFrame that is known to be present. -/
def dfEmpty : DF := { rowLab := [], colLab := [], vals := [] }

/-- First C5 ratings table. -/
def c5A : DF :=
  { rowLab := [0, 1], colLab := [0, 1, 2],
    vals := [[some 1, some 2, some 3], [some 1, some 2, some 3]] }

/-- Second C5 ratings table: identical to the first except in the one cell
the train mask excludes. -/
def c5B : DF :=
  { rowLab := [0, 1], colLab := [0, 1, 2],
    vals := [[some 1, some 2, some 3], [some 1, some 2, some 99]] }

/-- The C5 train mask, excluding only the cell (subject 1, item 2). -/
def c5mask : BMask := [[true, true, true], [true, true, false]]

/-- The C5 pipeline: construct a masked KNN model, fit with the pearson
metric, predict without a k cutoff. -/
def c5run (df : DF) (sqrtFn : ℚ → ℚ) : CFState :=
  (knnPredictS none ((knnFit sqrtFn "pearson" none (initCF df (some c5mask))).1)).1

lemma c5_sim_row0 (sqrtFn : ℚ → ℚ) :
    (knnSimMatrix sqrtFn "pearson" (applyMask c5A.vals c5mask)).getD 0 [] =
      [some (6 / sqrtFn 36), some (1 / sqrtFn 1)] := by
  norm_num [knnSimMatrix, knnSimEntry, overlap, pearsonOpt, pearsonNum,
    pearsonDenSq, sumFst, sumSnd, sumProd, sumFstSq, sumSndSq, applyMask, c5A, c5mask,
    List.range_succ, getD_map_range]

lemma c5_entry (sqrtFn : ℚ → ℚ) (hsq : sqrtFn 1 = 1) (fullT : Table) (r : ℚ)
    (hr : (fullT[1]?.getD [])[2]?.getD none = some r) :
    knnPredictEntry (knnSimMatrix sqrtFn "pearson" (applyMask c5A.vals c5mask))
      fullT none 0 2 = some r := by
  have hrow := c5_sim_row0 sqrtFn
  rw [hsq] at hrow
  simp only [knnPredictEntry, selectedNeighbors, hrow]
  norm_num [sortOrd, insOrd, allSome, keepDefined, keepUndefined,
    List.enum, List.enumFrom, hr, List.getD_eq_getElem?_getD]

/-- C5, confirmed: two ratings tables agreeing on every train-mask-true cell
and differing only in the masked-out cell (subject 1, item 2) produce, after
the same masked pearson fit and predict, different predicted ratings at
(subject 0, item 2): KNN.predict reads neighbor values from the full ratings
table, so the masked-out value 3 versus 99 leaks into the prediction. -/
theorem C5_knn_predict_leak (sqrtFn : ℚ → ℚ) (hsq : sqrtFn 1 = 1) :
    applyMask c5A.vals c5mask = applyMask c5B.vals c5mask ∧
    c5A.vals ≠ c5B.vals ∧
    (((c5run c5A sqrtFn).predicted_ratings.getD dfEmpty).vals.getD 0 []).getD 2 none =
      some 3 ∧
    (((c5run c5B sqrtFn).predicted_ratings.getD dfEmpty).vals.getD 0 []).getD 2 none =
      some 99 := by
  have hmaskEq : applyMask c5A.vals c5mask = applyMask c5B.vals c5mask := by decide
  refine ⟨hmaskEq, by decide, ?_, ?_⟩
  · have hass : ((c5run c5A sqrtFn).predicted_ratings.getD dfEmpty).vals =
        knnPredictTable (knnSimMatrix sqrtFn "pearson" (applyMask c5A.vals c5mask))
          2 3 c5A.vals none := rfl
    rw [hass]
    simp only [knnPredictTable, getD_map_range]
    norm_num [c5_entry sqrtFn hsq c5A.vals 3 (by decide)]
  · have hass : ((c5run c5B sqrtFn).predicted_ratings.getD dfEmpty).vals =
        knnPredictTable (knnSimMatrix sqrtFn "pearson" (applyMask c5B.vals c5mask))
          2 3 c5B.vals none := rfl
    rw [hass, ← hmaskEq]
    simp only [knnPredictTable, getD_map_range]
    norm_num [c5_entry sqrtFn hsq c5B.vals 99 (by decide)]

/-- The C6 model: a fully observed 2 by 2 ratings table with an explicit
all-true train mask and no dilation yet. -/
def c6s : CFState :=
  initCF
    { rowLab := [0, 1], colLab := [0, 1],
      vals := [[some 1, some 2], [some 3, some 4]] }
    (some [[true, true], [true, true]])

/-- C6 counterexample: KNN.fit called with the unsupported metric foo and a
dilation width of 2 raises the not-implemented error, yet the failed call has
already dilated: is_mask_dilated flipped to true, dilated_mask was populated,
and the masked ratings changed (cell (0,1) went from 2 to the moving average
3/2), contradicting the claim that a failing fit leaves the dilation state
and masked ratings unchanged. -/
theorem C6_counterexample :
    (knnFit id "foo" (some 2) c6s).2 = some (.notImplementedError "foo") ∧
    c6s.is_mask_dilated = false ∧
    (knnFit id "foo" (some 2) c6s).1.is_mask_dilated = true ∧
    c6s.dilated_mask = none ∧
    ((knnFit id "foo" (some 2) c6s).1.dilated_mask).isSome = true ∧
    ((c6s.masked_ratings.getD []).getD 0 []).getD 1 none = some 2 ∧
    (((knnFit id "foo" (some 2) c6s).1.masked_ratings.getD []).getD 0 []).getD 1 none =
      some (3 / 2) ∧
    some ((3 : ℚ) / 2) ≠ some (2 : ℚ) := by
  refine ⟨by decide, by decide, by decide, by decide, by decide, by decide, ?_, by norm_num⟩
  norm_num +decide [knnFit, dilateState, convTsMeanOverlap, convSame, applyMask, c6s,
    initCF, supportedMetric, List.range_succ, getD_map_range, List.getD_eq_getElem?_getD]

/-- C6, corrected: a KNN.fit call that raises an error does leave is_fit, the
similarity artifact, the ratings, the train mask and the predictions
unchanged, and when no dilation was requested it leaves the whole state
unchanged; but when dilate_ts_n_samples is supplied together with an
unsupported metric, the dilation has already mutated masked_ratings,
dilated_mask and is_mask_dilated before the metric check fires (see the C6
counterexample). -/
theorem C6_failed_fit_state (sqrtFn : ℚ → ℚ) (metric : String) (dilate : Option ℕ)
    (s : CFState) (e : CFErr) (h : (knnFit sqrtFn metric dilate s).2 = some e) :
    (knnFit sqrtFn metric dilate s).1.is_fit = s.is_fit ∧
    (knnFit sqrtFn metric dilate s).1.subject_similarity = s.subject_similarity ∧
    (knnFit sqrtFn metric dilate s).1.ratings = s.ratings ∧
    (knnFit sqrtFn metric dilate s).1.train_mask = s.train_mask ∧
    (knnFit sqrtFn metric dilate s).1.predicted_ratings = s.predicted_ratings ∧
    (dilate = none → (knnFit sqrtFn metric dilate s).1 = s) := by
  rcases dilate with _ | n
  · by_cases hsup : supportedMetric metric
    · exfalso
      simp [knnFit, hsup] at h
    · simp [knnFit, hsup]
  · by_cases hm : s.is_mask
    · by_cases hsup : supportedMetric metric
      · exfalso
        simp [knnFit, hm, hsup] at h
      · simp [knnFit, hm, hsup, dilateState]
    · simp [knnFit, hm]

/-- C6 witness: the preserved fields instantiated on a concrete failing fit
without dilation, where the whole state is unchanged. -/
theorem C6_failed_fit_state_witness :
    (knnFit id "foo" none c6s).1.is_fit = c6s.is_fit ∧
    (knnFit id "foo" none c6s).1.subject_similarity = c6s.subject_similarity ∧
    (knnFit id "foo" none c6s).1.ratings = c6s.ratings ∧
    (knnFit id "foo" none c6s).1.train_mask = c6s.train_mask ∧
    (knnFit id "foo" none c6s).1.predicted_ratings = c6s.predicted_ratings ∧
    (none = (none : Option ℕ) → (knnFit id "foo" none c6s).1 = c6s) :=
  C6_failed_fit_state id "foo" none c6s (.notImplementedError "foo") (by decide)

lemma meanFit_ratings (d : Option ℕ) (s : CFState) : (meanFit d s).ratings = s.ratings := by
  unfold meanFit
  rcases hm : s.is_mask
  · rfl
  · rcases d with _ | n <;> rfl

lemma meanFit_is_fit (d : Option ℕ) (s : CFState) : (meanFit d s).is_fit = true := by
  unfold meanFit
  rcases hm : s.is_mask
  · rfl
  · rcases d with _ | n <;> rfl

lemma meanFit_mean_length (d : Option ℕ) (s : CFState) :
    ((meanFit d s).mean.getD []).length = s.ratings.colLab.length := by
  unfold meanFit
  rcases hm : s.is_mask
  · simp [colMeans]
  · rcases d with _ | n <;> simp [colMeans, dilateState]

/-- The C9 counterexample model: a Mean model over two subjects and one item
whose explicit train mask excludes every cell, fit and predicted. -/
def c9run : CFState × Option CFErr :=
  meanPredictS (meanFit none (initCF
    { rowLab := [0, 1], colLab := [0], vals := [[some 1], [some 2]] }
    (some [[false], [false]])))

/-- C9 counterexample: predict() completes on a fitted Mean model whose only
item has no observed training rating, and the resulting predicted_ratings
table, while keeping the ratings shape and labels, is filled with the
missing marker: the claim that predicted_ratings is fully populated with no
missing markers fails. -/
theorem C9_counterexample :
    (c9run.1.predicted_ratings.getD dfEmpty).vals = [[none], [none]] ∧
    anyNull (c9run.1.predicted_ratings.getD dfEmpty).vals = true ∧
    c9run.2 = none := by
  refine ⟨by decide, by decide, by decide⟩

lemma knnPredictS_shape (k : Option ℕ) (s : CFState) (hf : s.is_fit = true) :
    ((knnPredictS k s).1.predicted_ratings.getD dfEmpty).rowLab = s.ratings.rowLab ∧
    ((knnPredictS k s).1.predicted_ratings.getD dfEmpty).colLab = s.ratings.colLab ∧
    ((knnPredictS k s).1.predicted_ratings.getD dfEmpty).vals.length =
      (if s.is_mask = true then s.masked_ratings.getD [] else s.ratings.vals).length ∧
    (∀ row ∈ ((knnPredictS k s).1.predicted_ratings.getD dfEmpty).vals,
      row.length = s.ratings.colLab.length) := by
  simp only [knnPredictS, hf, Bool.not_true, Bool.false_eq_true, if_false, Option.getD_some]
  refine ⟨trivial, trivial, by simp [knnPredictTable], ?_⟩
  intro row hrow
  simp only [knnPredictTable, List.mem_map] at hrow
  obtain ⟨_, _, he⟩ := hrow
  simp [← he]

lemma knnFit_ok_ratings (sqrtFn : ℚ → ℚ) (metric : String) (s : CFState)
    (hsup : supportedMetric metric = true) :
    (knnFit sqrtFn metric none s).1.ratings = s.ratings := by
  simp [knnFit, hsup]

lemma knnFit_ok_is_mask (sqrtFn : ℚ → ℚ) (metric : String) (s : CFState)
    (hsup : supportedMetric metric = true) :
    (knnFit sqrtFn metric none s).1.is_mask = s.is_mask := by
  simp [knnFit, hsup]

lemma knnFit_ok_masked (sqrtFn : ℚ → ℚ) (metric : String) (s : CFState)
    (hsup : supportedMetric metric = true) :
    (knnFit sqrtFn metric none s).1.masked_ratings = s.masked_ratings := by
  simp [knnFit, hsup]

lemma knnFit_ok_is_fit (sqrtFn : ℚ → ℚ) (metric : String) (s : CFState)
    (hsup : supportedMetric metric = true) :
    (knnFit sqrtFn metric none s).1.is_fit = true := by
  simp [knnFit, hsup]

lemma initCF_ratings (df : DF) (mask : Option BMask) : (initCF df mask).ratings = df := by
  rcases mask with _ | m
  · by_cases hn : anyNull df.vals <;> simp [initCF, hn]
  · rfl

/-- C9, corrected: after Mean.fit-then-predict and after a successful
KNN.fit-then-predict, predicted_ratings carries exactly the row and column
labels of the ratings table, its row count equals the ratings row count, and
every row has one cell per item label; but the table need not be fully
populated: cells whose prediction is undefined (an item with no observed
training rating for Mean, an empty or missing-valued neighbor set for KNN)
hold the missing marker, as the C9 counterexample shows. -/
theorem C9_predict_shape :
    (∀ (d : Option ℕ) (s0 : CFState),
      ((meanPredictS (meanFit d s0)).1.predicted_ratings.getD dfEmpty).rowLab =
        s0.ratings.rowLab ∧
      ((meanPredictS (meanFit d s0)).1.predicted_ratings.getD dfEmpty).colLab =
        s0.ratings.colLab ∧
      ((meanPredictS (meanFit d s0)).1.predicted_ratings.getD dfEmpty).vals.length =
        s0.ratings.vals.length ∧
      (∀ row ∈ ((meanPredictS (meanFit d s0)).1.predicted_ratings.getD dfEmpty).vals,
        row.length = s0.ratings.colLab.length)) ∧
    (∀ (sqrtFn : ℚ → ℚ) (metric : String) (k : Option ℕ) (mask : Option BMask) (df : DF),
      (match mask with
        | some m => m.length == df.vals.length
        | none => true) = true →
      (knnFit sqrtFn metric none (initCF df mask)).2 = none →
      ((knnPredictS k (knnFit sqrtFn metric none (initCF df mask)).1).1.predicted_ratings.getD
          dfEmpty).rowLab = df.rowLab ∧
      ((knnPredictS k (knnFit sqrtFn metric none (initCF df mask)).1).1.predicted_ratings.getD
          dfEmpty).colLab = df.colLab ∧
      ((knnPredictS k (knnFit sqrtFn metric none (initCF df mask)).1).1.predicted_ratings.getD
          dfEmpty).vals.length = df.vals.length ∧
      (∀ row ∈ ((knnPredictS k (knnFit sqrtFn metric none
          (initCF df mask)).1).1.predicted_ratings.getD dfEmpty).vals,
        row.length = df.colLab.length)) := by
  constructor
  · intro d s0
    have hf := meanFit_is_fit d s0
    have hr := meanFit_ratings d s0
    have hl := meanFit_mean_length d s0
    simp only [meanPredictS, hf, Bool.not_true, Bool.false_eq_true, if_false,
      Option.getD_some, hr]
    refine ⟨trivial, trivial, by simp, ?_⟩
    intro row hrow
    simp only [List.mem_map] at hrow
    obtain ⟨_, _, he⟩ := hrow
    rw [← he]
    exact hl
  · intro sqrtFn metric k mask df hmask hok
    by_cases hsup : supportedMetric metric
    · have s1R := knnFit_ok_ratings sqrtFn metric (initCF df mask) hsup
      have s1M := knnFit_ok_is_mask sqrtFn metric (initCF df mask) hsup
      have s1MR := knnFit_ok_masked sqrtFn metric (initCF df mask) hsup
      have s1F := knnFit_ok_is_fit sqrtFn metric (initCF df mask) hsup
      obtain ⟨h1, h2, h3, h4⟩ := knnPredictS_shape k _ s1F
      have hrat := initCF_ratings df mask
      have hloop : (if (initCF df mask).is_mask = true then
          (initCF df mask).masked_ratings.getD [] else df.vals).length =
          df.vals.length := by
        rcases mask with _ | m
        · by_cases hn : anyNull df.vals
          · simp [initCF, hn, applyMask, notNullMask]
          · simp [initCF, hn]
        · simp only [Option.some.injEq] at hmask
          simp only [beq_iff_eq] at hmask
          simp [initCF, applyMask, hmask]
      refine ⟨?_, ?_, ?_, ?_⟩
      · rw [h1, s1R, hrat]
      · rw [h2, s1R, hrat]
      · rw [h3, s1M, s1MR, s1R, hrat]
        exact hloop
      · intro row hrow
        have hx := h4 row hrow
        rw [s1R, hrat] at hx
        exact hx
    · exfalso
      simp [knnFit, hsup] at hok
/-- C5 witness: the leak instantiated at the identity square root, which
satisfies the only square-root value the run needs. -/
theorem C5_knn_predict_leak_witness :
    applyMask c5A.vals c5mask = applyMask c5B.vals c5mask ∧
    c5A.vals ≠ c5B.vals ∧
    (((c5run c5A id).predicted_ratings.getD dfEmpty).vals.getD 0 []).getD 2 none =
      some 3 ∧
    (((c5run c5B id).predicted_ratings.getD dfEmpty).vals.getD 0 []).getD 2 none =
      some 99 :=
  C5_knn_predict_leak id rfl

/-- C9 witness: the shape and label preservation instantiated on the
counterexample Mean run and on a concrete masked pearson KNN run. -/
theorem C9_predict_shape_witness :
    ((c9run.1.predicted_ratings.getD dfEmpty).rowLab = [0, 1] ∧
    ((knnPredictS none
        (knnFit id "pearson" none (initCF c5A (some c5mask))).1).1.predicted_ratings.getD
          dfEmpty).vals.length = c5A.vals.length) := by
  constructor
  · exact (C9_predict_shape.1 none (initCF
      { rowLab := [0, 1], colLab := [0], vals := [[some 1], [some 2]] }
      (some [[false], [false]]))).1
  · exact (C9_predict_shape.2 id "pearson" none (some c5mask) c5A (by decide)
      (by decide)).2.2.1

/-- The train mask built by split_train_test: an all-false boolean table of
the ratings shape with, in each subject row, true exactly at the item
positions drawn for that subject. -/
def splitMask (sampler : ℕ → Finset ℕ) (nRows nCols : ℕ) : BMask :=
  (List.range nRows).map (fun i => (List.range nCols).map (fun j => decide (j ∈ sampler i)))

/-- BaseCF.split_train_test: the per-subject draw of np.random.choice(columns,
replace=False, size=n_train_items) is injected as a sampler returning the set
of drawn item positions; the freshly built mask replaces any prior mask, the
masked ratings are recomputed from it, and the instance becomes masked. -/
def splitTrainTest (sampler : ℕ → Finset ℕ) (s : CFState) : CFState :=
  { s with
    train_mask := some (splitMask sampler s.ratings.rowLab.length s.ratings.colLab.length),
    masked_ratings := some (applyMask s.ratings.vals
      (splitMask sampler s.ratings.rowLab.length s.ratings.colLab.length)),
    is_mask := true }

lemma countP_range_mem (S : Finset ℕ) (I : ℕ) (h : ∀ j ∈ S, j < I) :
    (List.range I).countP (fun j => decide (j ∈ S)) = S.card := by
  rw [List.countP_eq_length_filter]
  have hnd : ((List.range I).filter (fun j => decide (j ∈ S))).Nodup :=
    (List.nodup_range I).filter _
  rw [← List.toFinset_card_of_nodup hnd]
  congr 1
  ext j
  simp only [List.mem_toFinset, List.mem_filter, List.mem_range, decide_eq_true_eq]
  exact ⟨fun hj => hj.2, fun hj => ⟨h j hj, hj⟩⟩

lemma count_true_splitRow (S : Finset ℕ) (I : ℕ) (h : ∀ j ∈ S, j < I) :
    ((List.range I).map (fun j => decide (j ∈ S))).count true = S.card := by
  rw [List.count_eq_countP, List.countP_map]
  rw [← countP_range_mem S I h]
  congr 1
  funext j
  simp

/-- C7, confirmed: for every model state and every injected per-subject draw
of k distinct in-range item positions (the contract of
np.random.choice(columns, replace=False, size=k), satisfiable exactly when k
does not exceed the item count), split_train_test installs a fresh train mask
with exactly k true cells in every subject row, recomputes the masked ratings
from it, and replaces any previously held mask; the distribution of the draw
lives in the injected sampler. -/
theorem C7_split_train_test (sampler : ℕ → Finset ℕ) (k : ℕ) (s : CFState)
    (hcard : ∀ i, (sampler i).card = k)
    (hlt : ∀ i, ∀ j ∈ sampler i, j < s.ratings.colLab.length) :
    (splitTrainTest sampler s).train_mask =
      some (splitMask sampler s.ratings.rowLab.length s.ratings.colLab.length) ∧
    (splitTrainTest sampler s).is_mask = true ∧
    (splitTrainTest sampler s).masked_ratings =
      some (applyMask s.ratings.vals
        (splitMask sampler s.ratings.rowLab.length s.ratings.colLab.length)) ∧
    (splitMask sampler s.ratings.rowLab.length s.ratings.colLab.length).length =
      s.ratings.rowLab.length ∧
    (∀ row ∈ splitMask sampler s.ratings.rowLab.length s.ratings.colLab.length,
      row.count true = k) := by
  refine ⟨rfl, rfl, rfl, by simp [splitMask], ?_⟩
  intro row hrow
  simp only [splitMask, List.mem_map, List.mem_range] at hrow
  obtain ⟨i, _, he⟩ := hrow
  rw [← he, count_true_splitRow (sampler i) s.ratings.colLab.length (hlt i), hcard i]

/-- C7 witness: a singleton draw on a one-item model installs a mask whose
single row holds exactly one true cell. -/
theorem C7_split_train_test_witness :
    (splitTrainTest (fun _ => {0}) c2fresh).train_mask =
      some (splitMask (fun _ => {0}) c2fresh.ratings.rowLab.length
        c2fresh.ratings.colLab.length) ∧
    (splitTrainTest (fun _ => {0}) c2fresh).is_mask = true ∧
    (splitTrainTest (fun _ => {0}) c2fresh).masked_ratings =
      some (applyMask c2fresh.ratings.vals
        (splitMask (fun _ => {0}) c2fresh.ratings.rowLab.length
          c2fresh.ratings.colLab.length)) ∧
    (splitMask (fun _ => {0}) c2fresh.ratings.rowLab.length
      c2fresh.ratings.colLab.length).length = c2fresh.ratings.rowLab.length ∧
    (∀ row ∈ splitMask (fun _ => {0}) c2fresh.ratings.rowLab.length
        c2fresh.ratings.colLab.length,
      row.count true = 1) :=
  C7_split_train_test (fun _ => {0}) 1 c2fresh (fun _ => rfl)
    (fun _ j hj => by rw [Finset.mem_singleton.mp hj]; decide)

/-- Elementwise product of two matrices (numpy star on arrays). -/
def hadamardM (a b : List (List ℚ)) : List (List ℚ) :=
  List.zipWith (List.zipWith (fun x y => x * y)) a b

/-- Elementwise difference of two matrices. -/
def matSub (a b : List (List ℚ)) : List (List ℚ) :=
  List.zipWith (List.zipWith (fun x y => x - y)) a b

/-- Elementwise quotient of two matrices. -/
def matDivE (a b : List (List ℚ)) : List (List ℚ) :=
  List.zipWith (List.zipWith (fun x y => x / y)) a b

/-- The epsilon floor 1e-5 of the multiplicative update. -/
def multEps : ℚ := 1 / 100000

/-- np.maximum(m, eps): floor every entry at epsilon. -/
def matMaxE (m : List (List ℚ)) : List (List ℚ) :=
  m.map (fun row => row.map (fun x => max x multEps))

/-- Sum of squared entries (the squared Frobenius norm). -/
def sumSqM (m : List (List ℚ)) : ℚ := (m.flatten.map (fun x => x ^ 2)).sum

/-- The loop state of NNMF_multiplicative.fit: factor matrices, previous
reconstruction, the square of fit_residual, and the iteration counter.  The
float value fit_residual = sqrt(sum(err**2)) is tracked by its square, and
the comparison fit_residual < fit_error_limit is expressed on the square. -/
structure MultState where
  W : List (List ℚ)
  H : List (List ℚ)
  XPrev : List (List ℚ)
  residSq : ℚ
  ctr : ℕ
deriving DecidableEq

/-- One iteration of the cf.py 627-647 while-loop body: multiplicative update
of W (with the old H), then of H (with the updated W and old H inside the
reconstruction), both floored at epsilon, then the masked residual between
consecutive reconstructions. -/
def multStep (X mask : List (List ℚ)) (s : MultState) : MultState :=
  let W1 := matMaxE (hadamardM s.W (matDivE (matMul X (matT s.H))
      (matMul (hadamardM mask (matMul s.W s.H)) (matT s.H))))
  let H1 := matMaxE (hadamardM s.H (matDivE (matMul (matT W1) X)
      (matMul (matT W1) (hadamardM mask (matMul W1 s.H)))))
  let XEst := matMul W1 H1
  { W := W1, H := H1, XPrev := XEst,
    residSq := sumSqM (hadamardM mask (matSub s.XPrev XEst)),
    ctr := s.ctr + 1 }

/-- The float comparison sqrt(residSq) < limit on the stored square: false
for a non-positive limit, else residSq < limit squared. -/
def resLT (resSq limit : ℚ) : Bool := decide (0 < limit) && decide (resSq < limit ^ 2)

/-- The literal continuation condition of the loop:
ctr <= max_iterations or fit_residual < fit_error_limit. -/
def multCond (maxIter : ℕ) (limit : ℚ) (s : MultState) : Bool :=
  decide (s.ctr ≤ maxIter) || resLT s.residSq limit

/-- The state on entry to the loop: the injected random initial factors, the
initial reconstruction, fit_residual = 100 (stored squared), ctr = 1. -/
def multInit (W0 H0 : List (List ℚ)) : MultState :=
  { W := W0, H := H0, XPrev := matMul W0 H0, residSq := 10000, ctr := 1 }

/-- The loop terminates on the given input exactly when some finite iterate
fails the continuation condition. -/
def multTerminates (X mask W0 H0 : List (List ℚ)) (maxIter : ℕ) (limit : ℚ) : Prop :=
  ∃ n, multCond maxIter limit ((multStep X mask)^[n] (multInit W0 H0)) = false

lemma multStep_ctr (X mask : List (List ℚ)) (s : MultState) :
    (multStep X mask s).ctr = s.ctr + 1 := rfl

lemma multIter_ctr (X mask W0 H0 : List (List ℚ)) :
    ∀ n, ((multStep X mask)^[n] (multInit W0 H0)).ctr = n + 1 := by
  intro n
  induction n with
  | zero => rfl
  | succ m ih =>
      rw [Function.iterate_succ_apply', multStep_ctr, ih]

/-- C3, corrected: the loop with the literal condition
(ctr <= max_iterations or fit_residual < fit_error_limit) never exits during
the first max_iterations iterations, and it terminates for every ratings
matrix, mask and initialization whenever fit_error_limit <= 0, exiting right
after iteration max_iterations; but termination does not hold for every
input: with the positive default fit_error_limit the C3 counterexample loops
forever once the residual reaches zero. -/
theorem C3_loop_termination (X mask W0 H0 : List (List ℚ)) (maxIter : ℕ) (limit : ℚ) :
    (∀ n < maxIter, multCond maxIter limit ((multStep X mask)^[n] (multInit W0 H0)) = true) ∧
    (limit ≤ 0 →
      multCond maxIter limit ((multStep X mask)^[maxIter] (multInit W0 H0)) = false ∧
      multTerminates X mask W0 H0 maxIter limit) := by
  constructor
  · intro n hn
    rw [multCond, multIter_ctr]
    have : n + 1 ≤ maxIter := hn
    simp [this]
  · intro hlim
    have hcond : multCond maxIter limit ((multStep X mask)^[maxIter] (multInit W0 H0)) =
        false := by
      rw [multCond, multIter_ctr, resLT]
      have h1 : ¬(maxIter + 1 ≤ maxIter) := by omega
      have h2 : ¬(0 < limit) := not_lt.mpr hlim
      simp [h1, h2]
    exact ⟨hcond, maxIter, hcond⟩

/-- C3 witness: with fit_error_limit = 0 the concrete one-cell run cannot
exit during its first two iterations and exits right after iteration two. -/
theorem C3_loop_termination_witness :
    (∀ n < 2, multCond 2 0 ((multStep [[1]] [[1]])^[n] (multInit [[1/2]] [[1/2]])) = true) ∧
    ((0 : ℚ) ≤ 0 →
      multCond 2 0 ((multStep [[1]] [[1]])^[2] (multInit [[1/2]] [[1/2]])) = false ∧
      multTerminates [[1]] [[1]] [[1/2]] [[1/2]] 2 0) :=
  C3_loop_termination [[1]] [[1]] [[1/2]] [[1/2]] 2 0

lemma c3_fixstep (c : ℕ) :
    multStep [[1]] [[1]] { W := [[2]], H := [[1/2]], XPrev := [[1]], residSq := 0, ctr := c } =
      { W := [[2]], H := [[1/2]], XPrev := [[1]], residSq := 0, ctr := c + 1 } := by
  norm_num [multStep, matMul, matT, dotL, hadamardM, matSub, matDivE, matMaxE, sumSqM,
    multEps, List.range_succ, max_def]

lemma c3_after2 :
    (multStep [[1]] [[1]])^[2] (multInit [[(1:ℚ)/2]] [[1/2]]) =
      { W := [[2]], H := [[1/2]], XPrev := [[1]], residSq := 0, ctr := 3 } := by
  rw [show (2 : ℕ) = 1 + 1 from rfl, Function.iterate_add_apply, Function.iterate_one]
  have h1 : multStep [[1]] [[1]] (multInit [[(1:ℚ)/2]] [[1/2]]) =
      { W := [[2]], H := [[1/2]], XPrev := [[1]], residSq := 9/16, ctr := 2 } := by
    norm_num [multStep, multInit, matMul, matT, dotL, hadamardM, matSub, matDivE, matMaxE,
      sumSqM, multEps, List.range_succ, max_def]
  rw [h1]
  norm_num [multStep, matMul, matT, dotL, hadamardM, matSub, matDivE, matMaxE, sumSqM,
    multEps, List.range_succ, max_def]

lemma c3_afterN (m : ℕ) :
    (multStep [[1]] [[1]])^[m + 2] (multInit [[(1:ℚ)/2]] [[1/2]]) =
      { W := [[2]], H := [[1/2]], XPrev := [[1]], residSq := 0, ctr := m + 3 } := by
  induction m with
  | zero => exact c3_after2
  | succ p ih =>
      rw [show p + 1 + 2 = (p + 2) + 1 from rfl, Function.iterate_succ_apply', ih,
        c3_fixstep]

/-- C3 counterexample: on the one-subject one-item ratings matrix [[1]] with
the all-ones mask, initial factors both one half, max_iterations = 100 and
the default fit_error_limit 1e-6, the masked residual is exactly zero from
iteration two on, so the literal condition (ctr <= 100 or residual < 1e-6)
holds at every iteration and the fit loop never terminates: the claim that
the loop terminates for every input is false. -/
theorem C3_counterexample :
    ¬ multTerminates [[1]] [[1]] [[(1:ℚ)/2]] [[1/2]] 100 (1/1000000) := by
  rintro ⟨n, hn⟩
  by_cases hle : n ≤ 99
  · rw [multCond, multIter_ctr] at hn
    have h1 : n + 1 ≤ 100 := by omega
    simp [h1] at hn
  · obtain ⟨m, rfl⟩ : ∃ m, n = m + 2 := ⟨n - 2, by omega⟩
    rw [multCond, c3_afterN m] at hn
    simp only [resLT, Bool.or_eq_false_iff, Bool.and_eq_false_iff,
      decide_eq_false_iff_not] at hn
    rcases hn.2 with h | h
    · exact h (by norm_num)
    · exact h (by norm_num)

end EmotionCF
